import Mathlib

/-!
Verification of the lego-cam motion-detection and state-arbitration subsystem.

This file is a shallow embedding of the core of the repository:
the motion arbitration state machine of `src/lego_cam/controller.py`
(`RecordingController._on_motion`, `_start_recording`, `_stop_recording`,
`_validate_environment`), the distance signal pipeline of
`src/lego_cam/sensors/tof_i2c.py` (`ToFSensor.events`, both the simulated
and the hardware path, including calibration-blob handling), and the
storage retention manager of `src/lego_cam/storage.py`
(`StorageManager.ensure_free_space`).

Python floats (monotonic timestamps, millimetre distances, file mtimes)
are modelled as exact rationals; byte counts as naturals. Side effects on
the external collaborators (recorder, storage) are modelled as explicit
effect lists, and the exception that `_stop_recording` swallows as a
boolean input.
-/

namespace LegoCam

/-- Controller state, `State` in controller.py: `IDLE` or `RECORDING`. -/
inductive CState where
  | idle
  | recording
deriving DecidableEq, Repr

/-- A motion event, `MotionEvent` in controller.py: `source` is the string
"sensor" or "camera", `t` the monotonic timestamp, `score` carried but unused. -/
structure MotionEvent where
  source : String
  t : ℚ
  score : ℚ
deriving DecidableEq, Repr

/-- Observable calls the controller makes on its collaborators. -/
inductive Eff where
  | ensureFreeSpace
  | recorderStart
  | recorderStop
  | logStopError
deriving DecidableEq, Repr

/-- The controller fields that motion arbitration reads and writes:
`_state`, `_last_motion_t` and `_last_motion_event` of `RecordingController`. -/
structure Ctrl where
  state : CState
  lastMotionT : Option ℚ
  lastMotionEvent : Option MotionEvent
deriving DecidableEq, Repr

/-- The debounce guard at the top of `RecordingController._on_motion`
(controller.py lines 227-231): the event is dropped when `_last_motion_t`
is set and the event's timestamp is less than 0.5 s after it. -/
def debounced (c : Ctrl) (ev : MotionEvent) : Bool :=
  match c.lastMotionT with
  | some t => decide (ev.t - t < 1/2)
  | none => false

/-- The success path of `RecordingController._start_recording` (controller.py
lines 321-329): storage check, recorder start, state := RECORDING, and
`_last_motion_t := monotonic()`. `tStartDone` is the value `monotonic()`
returns at line 329 (at or after the triggering event's timestamp). -/
def startRecording (c : Ctrl) (tStartDone : ℚ) : Ctrl × List Eff :=
  ({ c with state := CState.recording, lastMotionT := some tStartDone },
   [Eff.ensureFreeSpace, Eff.recorderStart])

/-- The body of `_on_motion` once the debounce guard has passed (controller.py
lines 233-251): record the event, start recording from IDLE on any source, and
while RECORDING let only a camera event reset the inactivity timer. -/
def onMotionAccepted (c : Ctrl) (ev : MotionEvent) (tStartDone : ℚ) : Ctrl × List Eff :=
  let c1 : Ctrl := { c with lastMotionEvent := some ev }
  match c1.state with
  | CState.idle => startRecording { c1 with lastMotionT := some ev.t } tStartDone
  | CState.recording =>
      if ev.source = "camera" then ({ c1 with lastMotionT := some ev.t }, [])
      else (c1, [])

/-- `RecordingController._on_motion` (controller.py lines 226-251). -/
def onMotion (c : Ctrl) (ev : MotionEvent) (tStartDone : ℚ) : Ctrl × List Eff :=
  if debounced c ev then (c, []) else onMotionAccepted c ev tStartDone

/-- `RecordingController._stop_recording` (controller.py lines 331-339): the
recorder's stop is attempted and any exception is caught and logged
(`stopFails` says whether it raised); then the storage retention check runs,
the state returns to IDLE and `_last_motion_t` is cleared. The function is
total: a stop failure never propagates. -/
def stopRecording (stopFails : Bool) (c : Ctrl) : Ctrl × List Eff :=
  ({ c with state := CState.idle, lastMotionT := none },
   Eff.recorderStop :: (if stopFails then [Eff.logStopError] else []) ++ [Eff.ensureFreeSpace])

/-- One zone of a TMF8820 measurement: a distance in mm and a confidence
value, as the driver's result records carry them. -/
structure Zone where
  distance : ℚ
  confidence : ℕ
deriving DecidableEq, Repr

/-- Per-sample state of the hardware distance pipeline in `ToFSensor.events`
(tof_i2c.py lines 100-103 and 185): `smoothed_mm`, `baseline_mm`, `stable_mm`. -/
structure TofState where
  smoothed : Option ℚ
  baseline : Option ℚ
  stable : Option ℚ
deriving DecidableEq, Repr

/-- The smoothing step of tof_i2c.py lines 209-214: an exponential moving
average applied only when `smooth_alpha > 0` and a previous smoothed value
exists; otherwise the raw value is taken directly. -/
def emaSmooth (alpha : ℚ) (smoothed : Option ℚ) (raw : ℚ) : ℚ :=
  match smoothed with
  | some m => if 0 < alpha then alpha * raw + (1 - alpha) * m else raw
  | none => raw

/-- One accepted raw distance through the hardware pipeline of tof_i2c.py
lines 209-241: smooth, seed `baseline_mm`/`stable_mm` from the first sample
with no event, then fire exactly when the smoothed value differs from
`stable_mm` by at least the constant 40.0 mm, resetting `stable_mm` on fire. -/
def tofStep (alpha : ℚ) (st : TofState) (raw : ℚ) : TofState × Bool :=
  let current := emaSmooth alpha st.smoothed raw
  match st.baseline with
  | none =>
      ({ smoothed := some current, baseline := some current, stable := some current }, false)
  | some b =>
      match st.stable with
      | none => ({ smoothed := some current, baseline := some b, stable := some current }, false)
      | some stb =>
          if 40 ≤ |current - stb| then
            ({ smoothed := some current, baseline := some b, stable := some current }, true)
          else
            ({ smoothed := some current, baseline := some b, stable := some stb }, false)

/-- The zone filter of tof_i2c.py line 202: every zone with a positive
distance is kept, whatever its confidence. -/
def zoneDistances (zones : List Zone) : List ℚ :=
  (zones.filter (fun z => 0 < z.distance)).map Zone.distance

/-- One measurement through the hardware loop of tof_i2c.py lines 202-241:
keep zones with distance > 0, skip the sample when none remain, otherwise
feed the closest (minimum) distance to the smoothing/hysteresis step.
`minConfidence` is the sensor's `min_confidence` field; the loop never
reads it, and the parameter is carried here to state that fact. -/
def processMeasurement (alpha : ℚ) (minConfidence : ℕ) (st : TofState) (zones : List Zone) :
    TofState × Bool :=
  match zoneDistances zones with
  | [] => (st, false)
  | d :: ds => tofStep alpha st (ds.foldl min d)

/-- One iteration of the simulation path of tof_i2c.py lines 62-76: the
virtual distance takes a jitter step clamped at 50 mm, and an event fires
exactly when it differs from the stable value by at least 40 mm, resetting
the stable value on fire. Returns (new current, new stable, event). -/
def simStep (current stable : ℚ) (jitter : ℚ) : ℚ × ℚ × Bool :=
  let current2 := max 50 (current + jitter)
  if 40 ≤ |current2 - stable| then (current2, current2, true)
  else (current2, stable, false)

/-- What the calibration branch of tof_i2c.py lines 158-183 does with the
configured file: `written` passes the bytes to `tof.write_calibration`,
`wrongSize` and `notFound` log a warning and skip, `runtimeCal` is the
no-file branch that calibrates at runtime when needed. -/
inductive CalAction where
  | written (bytes : List ℕ)
  | wrongSize (n : ℕ)
  | notFound
  | runtimeCal
deriving DecidableEq, Repr

/-- The calibration-blob handling of tof_i2c.py lines 158-183. `content` is
the file's bytes, or `none` when the path does not exist. -/
def calibrationAction (calibrationFile : String) (content : Option (List ℕ)) : CalAction :=
  if calibrationFile = "" then CalAction.runtimeCal
  else
    match content with
    | none => CalAction.notFound
    | some bytes =>
        if bytes.length = 188 then CalAction.written bytes else CalAction.wrongSize bytes.length

/-- Which external tools and libraries the host offers: the probes taken by
`_validate_environment` (picamera2 import, ffmpeg on PATH, numpy import) and
by the hardware branch of `ToFSensor.events` (smbus2 + tmf882x import). -/
structure EnvProbe where
  picamera2 : Bool
  ffmpeg : Bool
  numpy : Bool
  tofDriver : Bool
deriving DecidableEq, Repr

/-- The camera configuration fields `_validate_environment` reads. -/
structure CamCfg where
  backend : String
  rotationMode : String
deriving DecidableEq, Repr

/-- Outcome of `RecordingController._validate_environment`: `fatal` is a
raised RuntimeError that aborts startup; `ok` carries whether the
numpy-missing warning was logged (a warning only, never fatal). -/
inductive StartupCheck where
  | ok (numpyWarning : Bool)
  | fatal (hint : String)
deriving DecidableEq, Repr

/-- `RecordingController._validate_environment` (controller.py lines 81-124):
fatal on a non-picamera2 backend, on a failed picamera2 import, and on a
missing ffmpeg when `rotation_mode = "ffmpeg_segment"`; a missing numpy with
vision motion enabled only logs a warning. -/
def validateEnvironment (cam : CamCfg) (enableVisionMotion : Bool) (env : EnvProbe) :
    StartupCheck :=
  if cam.backend ≠ "picamera2" then
    StartupCheck.fatal "Unsupported camera backend; set camera.backend to picamera2"
  else if env.picamera2 = false then
    StartupCheck.fatal "Picamera2 is required but not found; install python3-picamera2"
  else if cam.rotationMode = "ffmpeg_segment" && !env.ffmpeg then
    StartupCheck.fatal "ffmpeg not found; install ffmpeg or set rotation_mode to rotate"
  else
    StartupCheck.ok (enableVisionMotion && !env.numpy)

/-- How the sensor event loop comes up: simulation, real hardware, or the
branch of tof_i2c.py lines 79-91 that, when the driver import fails, logs an
error and then sleeps forever yielding no events at all. -/
inductive SensorLoopMode where
  | simulated
  | hardware
  | idleNoEvents
deriving DecidableEq, Repr

/-- The import dispatch of `ToFSensor.events` (tof_i2c.py lines 48 and
79-91): simulation when configured; otherwise hardware when smbus2 and the
tmf882x driver import, and an endless no-event sleep loop when they do not. -/
def sensorLoopMode (simulate : Bool) (env : EnvProbe) : SensorLoopMode :=
  if simulate then SensorLoopMode.simulated
  else if env.tofDriver then SensorLoopMode.hardware
  else SensorLoopMode.idleNoEvents

/-- A recorded segment file: its modification time and size in bytes. -/
structure Seg where
  mtime : ℚ
  size : ℕ
deriving DecidableEq, Repr

/-- `StorageManager._free_mb` (storage.py lines 50-52): free bytes reported
by the filesystem, floored to whole mebibytes. -/
def mbOf (freeBytes : ℕ) : ℕ := freeBytes / 1048576

/-- Insertion into a list ordered by ascending mtime, the order
`StorageManager.list_segments` (storage.py lines 39-44) sorts by. -/
def insertByMtime (x : Seg) : List Seg → List Seg
  | [] => [x]
  | y :: ys => if x.mtime < y.mtime then x :: y :: ys else y :: insertByMtime x ys

/-- The mtime sort of `StorageManager.list_segments`: oldest first. -/
def sortByMtime : List Seg → List Seg
  | [] => []
  | x :: xs => insertByMtime x (sortByMtime xs)

/-- Total size in bytes of a list of segments. -/
def sizeSum (l : List Seg) : ℕ := (l.map Seg.size).sum

/-- The while loop of `StorageManager.ensure_free_space` (storage.py lines
23-37) over the oldest-first segment list: re-measure free space each
iteration; return normally as soon as it reaches `min_free_mb`; otherwise
delete the oldest remaining segment; warn and return when none remains.
Returns (final free bytes, remaining segments oldest-first, warned). -/
def pruneLoop (minMB : ℕ) : ℕ → List Seg → ℕ × List Seg × Bool
  | free, [] => if minMB ≤ mbOf free then (free, [], false) else (free, [], true)
  | free, s :: rest =>
      if minMB ≤ mbOf free then (free, s :: rest, false)
      else pruneLoop minMB (free + s.size) rest

/-- `StorageManager.ensure_free_space` on a directory whose segment files are
`segs` and whose filesystem starts with `freeBytes` free: deleting a file
returns its bytes to the filesystem, which the loop re-measures. -/
def ensureFreeSpace (minMB freeBytes : ℕ) (segs : List Seg) : ℕ × List Seg × Bool :=
  pruneLoop minMB freeBytes (sortByMtime segs)

/-- C1: in `ToFSensor.events` the hardware pipeline seeds its stable
reference from the first accepted sample without an event, and afterwards an
event fires exactly when the smoothed distance differs from the stable
reference by at least the fixed constant 40 mm — not a configured
`hysteresis_mm` — and every firing resets the stable reference to the
smoothed value. -/
theorem tof_hysteresis_fixed_forty (alpha raw sm b stb : ℚ) :
    tofStep alpha { smoothed := none, baseline := none, stable := none } raw =
      ({ smoothed := some (emaSmooth alpha none raw),
         baseline := some (emaSmooth alpha none raw),
         stable := some (emaSmooth alpha none raw) }, false) ∧
    ((tofStep alpha { smoothed := some sm, baseline := some b, stable := some stb } raw).2 =
        true ↔ 40 ≤ |emaSmooth alpha (some sm) raw - stb|) ∧
    (tofStep alpha { smoothed := some sm, baseline := some b, stable := some stb } raw).1.stable =
      some (if 40 ≤ |emaSmooth alpha (some sm) raw - stb| then emaSmooth alpha (some sm) raw
            else stb) := by
  refine ⟨rfl, ?_, ?_⟩ <;> simp only [tofStep] <;> split <;> simp_all

/-- C2: while recording, once an event passes the debounce check, a
sensor-sourced event leaves `_last_motion_t` unchanged and a camera-sourced
event sets it to the event's timestamp. -/
theorem recording_source_trust (c : Ctrl) (ev : MotionEvent) (tD : ℚ)
    (hrec : c.state = CState.recording) (hdeb : debounced c ev = false) :
    (ev.source = "sensor" → (onMotion c ev tD).1.lastMotionT = c.lastMotionT) ∧
    (ev.source = "camera" → (onMotion c ev tD).1.lastMotionT = some ev.t) := by
  constructor <;> intro hs <;> simp [onMotion, hdeb, onMotionAccepted, hrec, hs]

/-- Witness for C2 at a concrete recording state and two concrete events. -/
theorem recording_source_trust_witness :
    (onMotion { state := CState.recording, lastMotionT := some 0, lastMotionEvent := none }
        { source := "sensor", t := 1, score := 1 } 1).1.lastMotionT = some 0 ∧
    (onMotion { state := CState.recording, lastMotionT := some 0, lastMotionEvent := none }
        { source := "camera", t := 1, score := 1 } 1).1.lastMotionT = some 1 :=
  ⟨(recording_source_trust _ _ 1 rfl
      (by simp only [debounced, decide_eq_false_iff_not]; norm_num)).1 rfl,
   (recording_source_trust _ _ 1 rfl
      (by simp only [debounced, decide_eq_false_iff_not]; norm_num)).2 rfl⟩

/-- C3 counterexample: after a recording starts at time 0, a sensor event at
t = 0.6 s is accepted past the debounce check (it becomes the last accepted
event) but leaves `_last_motion_t` at 0; a camera event at t = 0.7 s — only
0.1 s after that last accepted event — is then also accepted and resets the
inactivity timer, instead of being discarded as the claim requires. -/
theorem debounce_reference_cex :
    onMotion { state := CState.idle, lastMotionT := none, lastMotionEvent := none }
        { source := "sensor", t := 0, score := 1 } 0 =
      ({ state := CState.recording, lastMotionT := some 0,
         lastMotionEvent := some { source := "sensor", t := 0, score := 1 } },
       [Eff.ensureFreeSpace, Eff.recorderStart]) ∧
    onMotion { state := CState.recording, lastMotionT := some 0,
               lastMotionEvent := some { source := "sensor", t := 0, score := 1 } }
        { source := "sensor", t := 3/5, score := 1 } 0 =
      ({ state := CState.recording, lastMotionT := some 0,
         lastMotionEvent := some { source := "sensor", t := 3/5, score := 1 } }, []) ∧
    ((7 : ℚ)/10 - 3/5 < 1/2) ∧
    (onMotion { state := CState.recording, lastMotionT := some 0,
                lastMotionEvent := some { source := "sensor", t := 3/5, score := 1 } }
        { source := "camera", t := 7/10, score := 1 } 0).1.lastMotionT = some (7/10) := by
  have hd2 :
      debounced
        { state := CState.recording, lastMotionT := some 0,
          lastMotionEvent := some { source := "sensor", t := 0, score := 1 } }
        { source := "sensor", t := 3/5, score := 1 } = false := by
    simp only [debounced, decide_eq_false_iff_not]; norm_num
  have hd3 :
      debounced
        { state := CState.recording, lastMotionT := some 0,
          lastMotionEvent := some { source := "sensor", t := 3/5, score := 1 } }
        { source := "camera", t := 7/10, score := 1 } = false := by
    simp only [debounced, decide_eq_false_iff_not]; norm_num
  refine ⟨rfl, ?_, by norm_num, ?_⟩
  · simp [onMotion, hd2, onMotionAccepted]
  · simp [onMotion, hd3, onMotionAccepted]

/-- C3 amended: `_on_motion` debounces against `_last_motion_t` — the
inactivity-timer reference — not against the last accepted event: an event is
discarded (no state change, no effects) exactly when `_last_motion_t` is set
and the event's timestamp is less than 0.5 s after it, and every event that
passes the check is processed, becoming `_last_motion_event`. -/
theorem debounce_uses_last_motion_t (c : Ctrl) (ev : MotionEvent) (tD : ℚ) :
    (debounced c ev = true → onMotion c ev tD = (c, [])) ∧
    (debounced c ev = false → (onMotion c ev tD).1.lastMotionEvent = some ev) ∧
    (debounced c ev = true ↔ ∃ t, c.lastMotionT = some t ∧ ev.t - t < 1/2) := by
  refine ⟨?_, ?_, ?_⟩
  · intro h; simp [onMotion, h]
  · intro h
    cases hcs : c.state with
    | idle => simp [onMotion, h, onMotionAccepted, hcs, startRecording]
    | recording =>
        by_cases hsrc : ev.source = "camera" <;>
          simp [onMotion, h, onMotionAccepted, hcs, hsrc, startRecording]
  · cases h : c.lastMotionT <;> simp [debounced, h]

/-- C4: the hardware measurement loop never reads `min_confidence`: a zone
with confidence 0 — below the configured minimum of 5 — still passes the
`distance > 0` filter, updates the smoothed value and fires a motion event. -/
theorem low_confidence_zone_not_filtered :
    zoneDistances [{ distance := 500, confidence := 0 }] = [500] ∧
    (processMeasurement 0 5 { smoothed := some 600, baseline := some 600, stable := some 600 }
        [{ distance := 500, confidence := 0 }]).1.smoothed = some 500 ∧
    (processMeasurement 0 5 { smoothed := some 600, baseline := some 600, stable := some 600 }
        [{ distance := 500, confidence := 0 }]).2 = true := by
  have hz : zoneDistances [{ distance := 500, confidence := 0 }] = [500] := by
    norm_num [zoneDistances]
  have habs : (40 : ℚ) ≤ |(500 : ℚ) - 600| := by
    rw [abs_of_nonpos (by norm_num : (500 : ℚ) - 600 ≤ 0)]; norm_num
  have hstep : tofStep 0 { smoothed := some 600, baseline := some 600, stable := some 600 } 500 =
      ({ smoothed := some 500, baseline := some 600, stable := some 500 }, true) := by
    simp [tofStep, emaSmooth, habs]
  refine ⟨hz, ?_, ?_⟩ <;> simp [processMeasurement, hz, hstep]

/-- C5 counterexample: with picamera2 and ffmpeg present but the TMF8820
driver library missing, in hardware mode (`simulate = false`) environment
validation succeeds — the controller enters its run loop — and the sensor
event loop degrades to an endless sleep yielding no events, instead of the
fatal startup abort the claim requires. -/
theorem missing_tof_driver_not_fatal_cex :
    validateEnvironment { backend := "picamera2", rotationMode := "ffmpeg_segment" } true
        { picamera2 := true, ffmpeg := true, numpy := true, tofDriver := false } =
      StartupCheck.ok false ∧
    sensorLoopMode false
        { picamera2 := true, ffmpeg := true, numpy := true, tofDriver := false } =
      SensorLoopMode.idleNoEvents := by
  decide

/-- C5 amended: startup validation is fatal exactly for an unsupported camera
backend, a failed picamera2 import, or a missing ffmpeg when
`rotation_mode = "ffmpeg_segment"`; a missing ToF driver library in hardware
mode never aborts — the sensor loop idles forever yielding no events. -/
theorem startup_fatal_conditions (cam : CamCfg) (vision : Bool) (env : EnvProbe)
    (simulate : Bool) :
    ((∃ w, validateEnvironment cam vision env = StartupCheck.ok w) ↔
      (cam.backend = "picamera2" ∧ env.picamera2 = true ∧
        (cam.rotationMode = "ffmpeg_segment" → env.ffmpeg = true))) ∧
    (sensorLoopMode simulate env = SensorLoopMode.idleNoEvents ↔
      (simulate = false ∧ env.tofDriver = false)) := by
  constructor
  · simp only [validateEnvironment]
    split_ifs with h1 h2 h3 <;> simp_all
  · cases hs : simulate <;> cases hd : env.tofDriver <;> simp [sensorLoopMode, hs, hd]

/-- C6 counterexample: fed the same raw distance 700 mm with the same prior
smoothed/stable value 600 mm and the same `smooth_alpha = 0.25`, the hardware
pipeline smooths to 625 mm and fires no event (25 mm < 40 mm), while the
simulation path applies no smoothing at all — its conditioned distance stays
700 mm — and fires: the two paths do not apply identical signal conditioning. -/
theorem sim_smoothing_differs_cex :
    (simStep 600 600 100).1 = 700 ∧
    (simStep 600 600 100).2.2 = true ∧
    emaSmooth (1/4) (some 600) 700 = 625 ∧
    (tofStep (1/4) { smoothed := some 600, baseline := some 600, stable := some 600 } 700).2 =
      false := by
  have hmax : max (50 : ℚ) (600 + 100) = 700 := by
    rw [max_eq_right (by norm_num : (50 : ℚ) ≤ 600 + 100)]; norm_num
  have habs : (40 : ℚ) ≤ |(700 : ℚ) - 600| := by
    rw [abs_of_nonneg (by norm_num : (0 : ℚ) ≤ 700 - 600)]; norm_num
  have hema : emaSmooth (1/4) (some 600) 700 = 625 := by
    simp only [emaSmooth]
    rw [if_pos (by norm_num : (0 : ℚ) < 1/4)]
    norm_num
  have hnabs : ¬ (40 : ℚ) ≤ |(625 : ℚ) - 600| := by
    rw [abs_of_nonneg (by norm_num : (0 : ℚ) ≤ 625 - 600)]; norm_num
  refine ⟨?_, ?_, hema, ?_⟩
  · simp [simStep, hmax, habs]
  · simp [simStep, hmax, habs]
  · simp only [tofStep]
    rw [hema]
    simp [hnabs]

/-- C6 amended: the simulation path shares the hardware pipeline's hysteresis
rule but none of its smoothing: on a seeded state with the same stable
reference, a simulation step coincides with the hardware step applied to the
random-walk distance with smoothing disabled (`alpha = 0`), not with the
configured `smooth_alpha`. -/
theorem sim_matches_hardware_alpha_zero (cur stb j sm b : ℚ) :
    (tofStep 0 { smoothed := some sm, baseline := some b, stable := some stb }
        (max 50 (cur + j))).1.smoothed = some (simStep cur stb j).1 ∧
    (tofStep 0 { smoothed := some sm, baseline := some b, stable := some stb }
        (max 50 (cur + j))).1.stable = some (simStep cur stb j).2.1 ∧
    (tofStep 0 { smoothed := some sm, baseline := some b, stable := some stb }
        (max 50 (cur + j))).2 = (simStep cur stb j).2.2 := by
  simp only [tofStep, simStep, emaSmooth, lt_self_iff_false, if_false]
  split <;> simp

/-- C8: `_stop_recording` swallows a recorder stop failure: whether or not
the stop raises, the controller logs (and only then) the error, still runs
the storage retention check, returns to IDLE and clears `_last_motion_t`. -/
theorem stop_recording_swallows_error (stopFails : Bool) (c : Ctrl) :
    (stopRecording stopFails c).1.state = CState.idle ∧
    (stopRecording stopFails c).1.lastMotionT = none ∧
    Eff.ensureFreeSpace ∈ (stopRecording stopFails c).2 ∧
    (Eff.logStopError ∈ (stopRecording stopFails c).2 ↔ stopFails = true) := by
  cases stopFails <;> simp [stopRecording]

/-- C9: the calibration blob is passed to the sensor backend exactly when a
calibration file is configured, exists, and holds exactly 188 bytes; an
existing file of any other length is rejected with the wrong-size warning. -/
theorem calibration_length_check (f : String) (content : Option (List ℕ)) (bytes : List ℕ) :
    (calibrationAction f content = CalAction.written bytes ↔
      f ≠ "" ∧ content = some bytes ∧ bytes.length = 188) ∧
    (f ≠ "" → content = some bytes → bytes.length ≠ 188 →
      calibrationAction f content = CalAction.wrongSize bytes.length) := by
  constructor
  · simp only [calibrationAction]
    split_ifs with h1
    · simp [h1]
    · cases content with
      | none => simp [h1]
      | some bs =>
          by_cases h2 : bs.length = 188
          · simp only [h2, if_true, CalAction.written.injEq, Option.some.injEq]
            constructor
            · rintro rfl; exact ⟨h1, rfl, h2⟩
            · rintro ⟨-, rfl, -⟩; rfl
          · simp only [h2, if_false]
            constructor
            · intro h; cases h
            · rintro ⟨-, hsome, hlen⟩
              cases hsome
              exact absurd hlen h2
  · intro h1 h2 h3
    subst h2
    simp [calibrationAction, h1, h3]

/-- Inserting a segment permutes consing it on. -/
theorem insertByMtime_perm (x : Seg) (l : List Seg) : (insertByMtime x l).Perm (x :: l) := by
  induction l with
  | nil => exact List.Perm.refl _
  | cons y ys ih =>
      simp only [insertByMtime]
      split
      · exact List.Perm.refl _
      · exact (ih.cons y).trans (List.Perm.swap x y ys)

/-- Membership through insertion. -/
theorem mem_insertByMtime (x z : Seg) (l : List Seg) :
    z ∈ insertByMtime x l ↔ z = x ∨ z ∈ l := by
  rw [(insertByMtime_perm x l).mem_iff, List.mem_cons]

/-- The mtime sort is a permutation of the segment list. -/
theorem sortByMtime_perm (l : List Seg) : (sortByMtime l).Perm l := by
  induction l with
  | nil => exact List.Perm.refl _
  | cons x xs ih => exact (insertByMtime_perm x (sortByMtime xs)).trans (ih.cons x)

/-- Insertion preserves the ascending-mtime order. -/
theorem sorted_insertByMtime (x : Seg) (l : List Seg)
    (h : List.Pairwise (fun a b => a.mtime ≤ b.mtime) l) :
    List.Pairwise (fun a b => a.mtime ≤ b.mtime) (insertByMtime x l) := by
  induction l with
  | nil => simp [insertByMtime]
  | cons y ys ih =>
      rw [List.pairwise_cons] at h
      obtain ⟨hy, hys⟩ := h
      simp only [insertByMtime]
      split
      · rename_i hlt
        refine List.Pairwise.cons ?_ (List.Pairwise.cons hy hys)
        intro z hz
        rcases List.mem_cons.mp hz with rfl | hz
        · exact le_of_lt hlt
        · exact le_trans (le_of_lt hlt) (hy z hz)
      · rename_i hnlt
        refine List.Pairwise.cons ?_ (ih hys)
        intro z hz
        rcases (mem_insertByMtime x z ys).mp hz with rfl | hz
        · exact le_of_not_lt hnlt
        · exact hy z hz

/-- The mtime sort is sorted ascending: its head is the oldest segment. -/
theorem sortByMtime_sorted (l : List Seg) :
    List.Pairwise (fun a b => a.mtime ≤ b.mtime) (sortByMtime l) := by
  induction l with
  | nil => simp [sortByMtime]
  | cons x xs ih => exact sorted_insertByMtime x (sortByMtime xs) ih

/-- Behaviour of the retention while loop over an oldest-first list: the
deleted files are a front segment of the list, the final free space is the
re-measured sum, every deletion happened strictly below the floor, a normal
return means the floor is met, and the warning return means every file is
gone with the floor still unmet. -/
theorem pruneLoop_spec (minMB : ℕ) (l : List Seg) : ∀ free : ℕ,
    ∃ deleted : List Seg,
      l = deleted ++ (pruneLoop minMB free l).2.1 ∧
      (pruneLoop minMB free l).1 = free + sizeSum deleted ∧
      (∀ k, k < deleted.length → mbOf (free + sizeSum (deleted.take k)) < minMB) ∧
      ((pruneLoop minMB free l).2.2 = false → minMB ≤ mbOf (pruneLoop minMB free l).1) ∧
      ((pruneLoop minMB free l).2.2 = true →
        (pruneLoop minMB free l).2.1 = [] ∧ mbOf (pruneLoop minMB free l).1 < minMB) := by
  induction l with
  | nil =>
      intro free
      by_cases h : minMB ≤ mbOf free
      · exact ⟨[], by simp [pruneLoop, h], by simp [pruneLoop, h, sizeSum], by simp,
          by simp [pruneLoop, h], by simp [pruneLoop, h]⟩
      · refine ⟨[], by simp [pruneLoop, h], by simp [pruneLoop, h, sizeSum], by simp,
          by simp [pruneLoop, h], ?_⟩
        intro _
        refine ⟨by simp [pruneLoop, h], ?_⟩
        simp only [pruneLoop, h, if_false]
        omega
  | cons s rest ih =>
      intro free
      by_cases h : minMB ≤ mbOf free
      · refine ⟨[], by simp [pruneLoop, h], by simp [pruneLoop, h, sizeSum], by simp,
          by simp [pruneLoop, h], by simp [pruneLoop, h]⟩
      · have hred : pruneLoop minMB free (s :: rest) = pruneLoop minMB (free + s.size) rest := by
          simp [pruneLoop, h]
        obtain ⟨deleted, h1, h2, h3, h4, h5⟩ := ih (free + s.size)
        refine ⟨s :: deleted, ?_, ?_, ?_, ?_, ?_⟩
        · rw [hred, List.cons_append]
          exact congrArg (List.cons s) h1
        · rw [hred, h2]
          simp [sizeSum]
          omega
        · intro k hk
          cases k with
          | zero =>
              simp only [List.take_zero, sizeSum, List.map_nil, List.sum_nil, Nat.add_zero]
              omega
          | succ j =>
              have hj : j < deleted.length := by simpa using hk
              have hthis := h3 j hj
              simp only [List.take_succ_cons, sizeSum, List.map_cons, List.sum_cons] at hthis ⊢
              have harr : free + (s.size + ((deleted.take j).map Seg.size).sum) =
                  free + s.size + ((deleted.take j).map Seg.size).sum := by omega
              rw [harr]
              exact hthis
        · rw [hred]; exact h4
        · rw [hred]; exact h5

/-- C7: `ensure_free_space` works on the oldest-first segment list (sorted,
a permutation of the directory's segments); it returns normally as soon as
the re-measured free space is at or above the floor, deletes only front
(oldest) segments, performs every deletion strictly below the floor — never
more than necessary — and warns exactly when all segments are gone with the
floor still unmet. -/
theorem ensure_free_space_retention (minMB freeBytes : ℕ) (segs : List Seg) :
    List.Pairwise (fun a b => a.mtime ≤ b.mtime) (sortByMtime segs) ∧
    (sortByMtime segs).Perm segs ∧
    ∃ deleted : List Seg,
      sortByMtime segs = deleted ++ (ensureFreeSpace minMB freeBytes segs).2.1 ∧
      (ensureFreeSpace minMB freeBytes segs).1 = freeBytes + sizeSum deleted ∧
      (∀ k, k < deleted.length → mbOf (freeBytes + sizeSum (deleted.take k)) < minMB) ∧
      ((ensureFreeSpace minMB freeBytes segs).2.2 = false →
        minMB ≤ mbOf (ensureFreeSpace minMB freeBytes segs).1) ∧
      ((ensureFreeSpace minMB freeBytes segs).2.2 = true →
        (ensureFreeSpace minMB freeBytes segs).2.1 = [] ∧
          mbOf (ensureFreeSpace minMB freeBytes segs).1 < minMB) := by
  refine ⟨sortByMtime_sorted segs, sortByMtime_perm segs, ?_⟩
  simpa only [ensureFreeSpace] using pruneLoop_spec minMB (sortByMtime segs) freeBytes

/-- C10: every recording stop clears `_last_motion_t`, and with
`_last_motion_t = None` the debounce check in `_on_motion` is skipped
entirely, so the first motion event after a stop is always processed no
matter how soon it follows any earlier event. -/
theorem debounce_cleared_on_stop (stopFails : Bool) (c : Ctrl) (ev : MotionEvent) (tD : ℚ) :
    (stopRecording stopFails c).1.state = CState.idle ∧
    (stopRecording stopFails c).1.lastMotionT = none ∧
    debounced (stopRecording stopFails c).1 ev = false ∧
    (onMotion (stopRecording stopFails c).1 ev tD).1.lastMotionEvent = some ev := by
  refine ⟨rfl, rfl, rfl, ?_⟩
  simp [onMotion, debounced, stopRecording, onMotionAccepted, startRecording]

end LegoCam
